import Mathlib

/-
Shallow embedding of `src/app.py`, a player-statistics aggregation
service: formatter utilities (`kd_round_to_int`, `_to_m_ss`,
`_distance_str`), the safe JSON accessor (`_safe_get`), the match-stat
extractor, the match pager, the Twire table locator / row parser, and
the TTL disk cache.  Python floats are modelled as rationals, Python
ints as `Int`, dictionaries as structures with `Option` fields, and the
on-disk cache as an explicit store from path strings to file contents.
-/

/-- Characters of the digits of a leading digit run (`\d+`, greedy). -/
def takeDigits (l : List Char) : List Char := l.takeWhile Char.isDigit

/-- Numeric value of a list of decimal digit characters. -/
def digitsToNat (l : List Char) : ℕ := l.foldl (fun a c => a * 10 + (c.toNat - 48)) 0

/-- Python `str.strip()`: drop whitespace from both ends. -/
def pyStrip (l : List Char) : List Char :=
  ((l.dropWhile Char.isWhitespace).reverse.dropWhile Char.isWhitespace).reverse

/-- Split a leading `+`/`-` sign off a character list; `true` means negative. -/
def parseSign : List Char → Bool × List Char
  | '-' :: r => (true, r)
  | '+' :: r => (false, r)
  | l => (false, l)

/-- Python `int(s)` on a string: strip whitespace, optional sign, a nonempty
run of decimal digits, nothing else; `none` models a raised `ValueError`.
(Underscore digit separators are outside the modelled subset.) -/
def pyInt? (s : String) : Option ℤ :=
  let p := parseSign (pyStrip s.data)
  if p.2 ≠ [] ∧ p.2.all Char.isDigit then
    some ((if p.1 then -1 else 1) * (digitsToNat p.2 : ℤ))
  else none

/-- Exponent suffix of a Python float literal: either nothing, or
`e`/`E`, an optional sign and a nonempty digit run. -/
def parseExpPart : List Char → Option ℤ
  | [] => some 0
  | c :: r =>
    if c = 'e' ∨ c = 'E' then
      let p := parseSign r
      if p.2 ≠ [] ∧ p.2.all Char.isDigit then
        some ((if p.1 then -1 else 1) * (digitsToNat p.2 : ℤ))
      else none
    else none

/-- Python `float(s)` on a string: strip whitespace, optional sign, then
digits with an optional fractional part (at least one digit overall) and
an optional exponent; `none` models a raised `ValueError`.  (`inf`,
`nan` and underscore separators are outside the modelled subset.) -/
def pyFloat? (s : String) : Option ℚ :=
  let p := parseSign (pyStrip s.data)
  let ds := takeDigits p.2
  let r1 := p.2.dropWhile Char.isDigit
  match r1 with
  | '.' :: r2 =>
    let fs := takeDigits r2
    let r3 := r2.dropWhile Char.isDigit
    if ds = [] ∧ fs = [] then none
    else
      (parseExpPart r3).map (fun e =>
        (if p.1 then -1 else 1) *
          ((digitsToNat ds : ℚ) + (digitsToNat fs : ℚ) / (10 : ℚ) ^ fs.length) * (10 : ℚ) ^ e)
  | _ =>
    if ds = [] then none
    else (parseExpPart r1).map (fun e =>
      (if p.1 then -1 else 1) * (digitsToNat ds : ℚ) * (10 : ℚ) ^ e)

/-- Python `str.lower()` on one character (the header and name texts the
code lower-cases are ASCII). -/
def lowerChar (c : Char) : Char :=
  if 'A' ≤ c ∧ c ≤ 'Z' then Char.ofNat (c.toNat + 32) else c

/-- Python `str.lower()`. -/
def lowerStr (s : String) : String := String.mk (s.data.map lowerChar)

/-- A dynamically typed Python value as it reaches the numeric helpers:
`None`, a number (Python int/float, modelled as `ℚ`) or a string. -/
inductive PyVal where
  | vNone
  | vNum (q : ℚ)
  | vStr (s : String)
deriving DecidableEq, Repr

/-- Python truthiness test on the modelled values (`None`, `0`, `""` are falsy). -/
def pyFalsy : PyVal → Bool
  | .vNone => true
  | .vNum q => q == 0
  | .vStr s => s == ""

/-- Python `int(x)`: truncation toward zero for numbers, literal parse for
strings, error (`none`) for `None`. -/
def pyTrunc (q : ℚ) : ℤ := if 0 ≤ q then ⌊q⌋ else ⌈q⌉

/-- Python `int(x)` over a dynamic value. -/
def pyIntOf : PyVal → Option ℤ
  | .vNum q => some (pyTrunc q)
  | .vStr s => pyInt? s
  | .vNone => none

/-- Python `float(x)` over a dynamic value. -/
def pyFloatOf : PyVal → Option ℚ
  | .vNum q => some q
  | .vStr s => pyFloat? s
  | .vNone => none

/-- `kd_round_to_int` (src/app.py:68-85): round a K/D value to an integer.
`n = float(val)` (0 on failure), `i = int(n)` (truncation toward zero),
`frac = abs(n - i)`; fractional part ≤ 0.4 rounds to `i`, ≥ 0.5 rounds one
away from zero, and the dead zone in between rounds to `i`. -/
def kd_round_to_int (v : PyVal) : ℤ :=
  match pyFloatOf v with
  | none => 0
  | some n =>
    if |n - (pyTrunc n : ℚ)| ≤ 0.4 then pyTrunc n
    else if 0.5 ≤ |n - (pyTrunc n : ℚ)| then pyTrunc n + (if 0 ≤ n then 1 else -1)
    else pyTrunc n

/-- Python `f"{s:02d}"` for the second count produced by `divmod (· 60)`
(always in `[0, 60)`): zero-pad to two digits. -/
def pad2 (n : ℤ) : String := if n < 10 then "0" ++ toString n else toString n

/-- `_to_m_ss` (src/app.py:49-56): `sec = int(seconds or 0)`, then
`divmod(sec, 60)` (floor division) rendered as `M:SS`; a conversion
failure yields the sentinel `"-"`. -/
def to_m_ss (seconds : PyVal) : String :=
  match pyIntOf (if pyFalsy seconds then .vNum 0 else seconds) with
  | none => "-"
  | some sec => toString (Int.fdiv sec 60) ++ ":" ++ pad2 (Int.fmod sec 60)

/-- Round half to even on rationals, as Python float formatting does. -/
def rhe (q : ℚ) : ℤ :=
  if q - ⌊q⌋ < 1/2 then ⌊q⌋
  else if 1/2 < q - ⌊q⌋ then ⌊q⌋ + 1
  else if ⌊q⌋ % 2 = 0 then ⌊q⌋ else ⌊q⌋ + 1

/-- Python `f"{x:.0f}"`. -/
def fmt0 (q : ℚ) : String := toString (rhe q)

/-- Python `f"{x:.2f}"` for a nonnegative value. -/
def fmt2 (q : ℚ) : String :=
  let m := rhe (q * 100)
  if m < 0 then "-" ++ toString (Int.fdiv (-m) 100) ++ "." ++ pad2 (Int.fmod (-m) 100)
  else toString (Int.fdiv m 100) ++ "." ++ pad2 (Int.fmod m 100)

/-- `_distance_str` (src/app.py:58-66): sum walked/ridden/swum metres
(each `x or 0`, i.e. missing or null becomes 0) and render `≥ 1000` as
kilometres with two decimals, otherwise as whole metres. -/
def distance_str (walk ride swim : Option ℚ) : String :=
  let total := walk.getD 0 + ride.getD 0 + swim.getD 0
  if 1000 ≤ total then fmt2 (total / 1000) ++ " km"
  else fmt0 total ++ " m"

/-- One parsed Twire leaderboard row, as built in `parse_twire_players`
(src/app.py:316-323). -/
structure PlayerRow where
  ign : String
  kd : ℤ
  kills_total : ℤ
  assists_total : ℤ
  headshot_kills : ℤ
  longest_kill : ℚ
deriving DecidableEq, Repr

/-- One table cell: whether the element is a `th`, and its text
(`get_text(strip=True)`). -/
structure HCell where
  isTH : Bool
  txt : String
deriving DecidableEq, Repr

/-- One `table` element of the rendered document.  `theadRows` are the
`tr` rows inside `thead`; `bodyRows` are the remaining `tr` rows in
document order (rendered leaderboard markup keeps them inside `tbody`,
so `select("tbody tr")` sees exactly these). -/
structure HTable where
  theadRows : List (List HCell)
  bodyRows : List (List HCell)
deriving DecidableEq, Repr

/-- Texts of a row's cells. -/
def cellsText (r : List HCell) : List String := r.map (fun c => c.txt)

/-- `tb.select("thead th")` texts: every `th` cell inside `thead`. -/
def theadThCells (tb : HTable) : List String :=
  ((tb.theadRows.flatten).filter (fun c => c.isTH)).map (fun c => c.txt)

/-- `tb.find_all("tr")`: all rows of the table in document order. -/
def allRows (tb : HTable) : List (List HCell) := tb.theadRows ++ tb.bodyRows

/-- Lower-case every string of a list. -/
def lcList (l : List String) : List String := l.map lowerStr

/-- Is `pat` a prefix of `l`?  (Manual Boolean prefix test on characters.) -/
def chPre : List Char → List Char → Bool
  | [], _ => true
  | _ :: _, [] => false
  | a :: as, b :: bs => a == b && chPre as bs

/-- Python `n in h` for strings: does `h` contain `n` as a substring? -/
def strHas (h n : String) : Bool := (h.data.tails).any (fun t => chPre n.data t)

/-- Header texts used by the table locator (src/app.py:257-261):
lower-cased `thead th` texts, falling back to the cells of the first
`tr` when there are none. -/
def locHeaders (tb : HTable) : List String :=
  let ths := lcList (theadThCells tb)
  if ths.isEmpty then
    match allRows tb with
    | [] => []
    | r :: _ => lcList (cellsText r)
  else ths

/-- The fixed synonym set scored by the locator (src/app.py:254). -/
def wanted : List String := ["player", "k/d", "kills", "assists", "headshot", "longest"]

/-- Locator score of one table (src/app.py:262): how many wanted words
occur as a substring of at least one header cell. -/
def tbScore (tb : HTable) : ℕ :=
  (wanted.filter (fun w => (locHeaders tb).any (fun h => strHas h w))).length

/-- The locator loop (src/app.py:256-265): first table scoring at least 4. -/
def findTarget : List HTable → Option HTable
  | [] => none
  | tb :: rest => if 4 ≤ tbScore tb then some tb else findTarget rest

/-- Header list and body rows of the located table
(src/app.py:271-279): prefer `thead th` headers with `tbody tr` bodies;
with no `thead th`, use the first row as the header row and all
following rows as the body (`find_all_next("tr")`, modelled as the
remaining rows of this table). -/
def parseHeadersBody (tb : HTable) : List String × List (List HCell) :=
  let hs := lcList (theadThCells tb)
  if hs.isEmpty then
    match allRows tb with
    | [] => ([], [])
    | r :: rest => (lcList (cellsText r), rest)
  else (hs, tb.bodyRows)

/-- `find_idx` (src/app.py:281-286): index of the first header containing
any of the given synonyms, `-1` when none does. -/
def find_idx (headers keys : List String) : ℤ :=
  match headers.findIdx? (fun h => keys.any (fun k => strHas h k)) with
  | some i => (i : ℤ)
  | none => -1

/-- The six inferred column indices (src/app.py:288-293). -/
structure ColIdx where
  i_player : ℤ
  i_kd : ℤ
  i_kills : ℤ
  i_ast : ℤ
  i_hs : ℤ
  i_long : ℤ
deriving DecidableEq, Repr

/-- Column inference over the located headers (src/app.py:288-293). -/
def mkIdx (headers : List String) : ColIdx :=
  ⟨find_idx headers ["player", "ign", "nickname", "name"],
   find_idx headers ["k/d", "kd"],
   find_idx headers ["kill"],
   find_idx headers ["assist"],
   find_idx headers ["headshot"],
   find_idx headers ["longest"]⟩

/-- Remove every comma, as `s.replace(",", "")` does. -/
def stripCommas (s : String) : String := String.mk (s.data.filter (fun c => c ≠ ','))

/-- Does the list start with a digit?  (The lookahead after a minus sign.) -/
def nextIsDigit : List Char → Bool
  | d :: _ => d.isDigit
  | [] => false

/-- Leftmost match of the regex `-?\d+`: scan for the first position where
a digit starts, or a minus sign directly followed by a digit; return the
sign and the greedy digit run. -/
def firstIntTok : List Char → Option (Bool × List Char)
  | [] => none
  | c :: cs =>
    if c.isDigit then some (false, takeDigits (c :: cs))
    else if c = '-' ∧ nextIsDigit cs then some (true, takeDigits cs)
    else firstIntTok cs

/-- `as_int` (src/app.py:295-298): strip commas, take the first signed
integer pattern, default 0. -/
def as_int (s : String) : ℤ :=
  match firstIntTok (stripCommas s).data with
  | some p => (if p.1 then -1 else 1) * (digitsToNat p.2 : ℤ)
  | none => 0

/-- Value of the optional `(\.\d+)?` group after the integer digits. -/
def fracPart (rest : List Char) : ℚ :=
  match rest with
  | c :: r2 =>
    if c = '.' ∧ nextIsDigit r2 then
      Rat.divInt (digitsToNat (takeDigits r2) : ℤ) ((10 : ℤ) ^ (takeDigits r2).length)
    else 0
  | [] => 0

/-- Value of a `-?\d+(\.\d+)?` match starting at `cs` (which begins with a
digit). -/
def floatTokVal (neg : Bool) (cs : List Char) : ℚ :=
  let v := (digitsToNat (takeDigits cs) : ℚ) + fracPart (cs.dropWhile Char.isDigit)
  if neg then -v else v

/-- Leftmost match of the regex `-?\d+(\.\d+)?`, returning its value. -/
def firstFloatTok : List Char → Option ℚ
  | [] => none
  | c :: cs =>
    if c.isDigit then some (floatTokVal false (c :: cs))
    else if c = '-' ∧ nextIsDigit cs then some (floatTokVal true cs)
    else firstFloatTok cs

/-- `as_float` (src/app.py:300-303): strip commas, take the first signed
decimal pattern, default 0.0. -/
def as_float (s : String) : ℚ :=
  (firstFloatTok (stripCommas s).data).getD 0

/-- `val` inside the row loop (src/app.py:309-310): the cell text at a
column index, `""` when the index is `-1` or out of range. -/
def val (tds : List HCell) (i : ℤ) : String :=
  if 0 ≤ i ∧ i < (tds.length : ℤ) then (tds.getD i.toNat ⟨false, ""⟩).txt else ""

/-- Body of the row loop (src/app.py:305-323) for one `tr`: skip rows
with fewer than 3 cells and rows whose name cell is empty or a repeated
header; otherwise build the `PlayerRow`. -/
def rowStep (idx : ColIdx) (tds : List HCell) : Option PlayerRow :=
  if tds.length < 3 then none
  else if val tds idx.i_player = "" ∨ lowerStr (val tds idx.i_player) = "player"
       ∨ lowerStr (val tds idx.i_player) = "name" then none
  else some
    { ign := val tds idx.i_player
      kd := kd_round_to_int (.vStr (val tds idx.i_kd))
      kills_total := as_int (val tds idx.i_kills)
      assists_total := as_int (val tds idx.i_ast)
      headshot_kills := as_int (val tds idx.i_hs)
      longest_kill := as_float (val tds idx.i_long) }

/-- The row loop itself: accumulate the kept rows in order. -/
def rowLoop (idx : ColIdx) : List (List HCell) → List PlayerRow
  | [] => []
  | tds :: rest =>
    match rowStep idx tds with
    | none => rowLoop idx rest
    | some pr => pr :: rowLoop idx rest

/-- `parse_twire_players` (src/app.py:250-324).  The DOM produced by the
HTML parser is modelled as the document's list of `table` elements. -/
def parse_twire_players (tables : List HTable) : List PlayerRow :=
  match findTarget tables with
  | none => []
  | some tb =>
    let hb := parseHeadersBody tb
    rowLoop (mkIdx hb.1) hb.2

/-- `CACHE_TTL_SEC` (src/app.py:29): six hours, in seconds. -/
def CACHE_TTL_SEC : ℤ := 6 * 60 * 60

/-- The character that replaces `/` and the two key separators of
`cache_path` (src/app.py:232), as character lists. -/
def sepG : List Char := ['_', '_', 'g', '=']

/-- The `__r=` separator of `cache_path`. -/
def sepR : List Char := ['_', '_', 'r', '=']

/-- `key.replace("/", "_")`, character by character. -/
def slashFix (c : Char) : Char := if c = '/' then '_' else c

/-- The cache key of `cache_path` (src/app.py:232):
`f"{tid}__g={group}__r={round_}".replace("/", "_")` (for string
parameters `group or ''` is the identity). -/
def cache_key (tid group round_ : String) : String :=
  String.mk ((tid.data ++ sepG ++ group.data ++ sepR ++ round_.data).map slashFix)

/-- `cache_path` (src/app.py:231-233): the on-disk path of a cache entry. -/
def cache_path (tid group round_ : String) : String :=
  ".twire_cache/player_stats_" ++ cache_key tid group round_ ++ ".json"

/-- Contents of one cache file: either unreadable/malformed JSON, or the
object `{"_ts": ts, "data": rows}` written by `save_cache`. -/
inductive CacheFile where
  | corrupt
  | entry (ts : ℤ) (data : List PlayerRow)
deriving DecidableEq

/-- The cache directory contents: file path to file contents (`none` =
no such file). -/
def CacheStore := String → Option CacheFile

/-- `load_cache` (src/app.py:235-244): return the stored rows when the
file exists, parses, and its timestamp is within the TTL of `now`;
otherwise `None`. -/
def load_cache (store : CacheStore) (now : ℤ) (tid group round_ : String) :
    Option (List PlayerRow) :=
  match store (cache_path tid group round_) with
  | some (.entry ts data) => if now - ts ≤ CACHE_TTL_SEC then some data else none
  | some .corrupt => none
  | none => none

/-- `save_cache` (src/app.py:246-248): overwrite the key's file with a
fresh timestamped entry. -/
def save_cache (store : CacheStore) (now : ℤ) (tid group round_ : String)
    (data : List PlayerRow) : CacheStore :=
  fun p => if p = cache_path tid group round_ then some (.entry now data) else store p

/-- A JSON-like Python value, for `_safe_get` (src/app.py:37-47);
`jnull` doubles as Python `None`. -/
inductive JVal where
  | jnull
  | jbool (b : Bool)
  | jnum (q : ℚ)
  | jstr (s : String)
  | jarr (l : List JVal)
  | jobj (fields : List (String × JVal))

/-- Is this value Python `None`? -/
def JVal.isNull : JVal → Bool
  | .jnull => true
  | _ => false

/-- Python `dict.get(k)`: the first binding of `k`, else `None`. -/
def jGet (fields : List (String × JVal)) (k : String) : JVal :=
  match fields.find? (fun p => p.1 == k) with
  | some p => p.2
  | none => .jnull

/-- `_safe_get` (src/app.py:37-47): walk the keys through nested dicts,
returning the caller's default as soon as the current node is not a dict,
and also when the final value is `None`. -/
def safe_get : JVal → List String → JVal → JVal
  | cur, [], default => if cur.isNull then default else cur
  | cur, k :: ks, default =>
    match cur with
    | .jobj fields => safe_get (jGet fields k) ks default
    | _ => default

/-- Specification-style path lookup: `some v` exactly when every key
traverses a dict binding, `none` when traversal fails. -/
def jLookup : JVal → List String → Option JVal
  | v, [] => some v
  | v, k :: ks =>
    match v with
    | .jobj fields =>
      match fields.find? (fun p => p.1 == k) with
      | some p => jLookup p.2 ks
      | none => none
    | _ => none

/-- The `attributes.stats` sub-record of a participant, with each stat
present (`some`) or missing (`none`), read via `dict.get` with the
defaults of src/app.py:162-173. -/
structure PStats where
  name : Option String
  winPlace : Option ℤ
  kills : Option ℤ
  damageDealt : Option ℚ
  dbnos : Option ℤ
  walkDistance : Option ℚ
  rideDistance : Option ℚ
  swimDistance : Option ℚ
  timeSurvived : Option PyVal
deriving DecidableEq, Repr

/-- The empty stats dict used when `_safe_get(inc, "attributes",
"stats", default={})` falls back to `{}`. -/
def emptyPStats : PStats := ⟨none, none, none, none, none, none, none, none, none⟩

/-- One record of the match document's `included` collection: its
`type` discriminator and its `attributes.stats` sub-record (`none` when
that path is missing). -/
structure IncRec where
  type : String
  stats : Option PStats
deriving DecidableEq, Repr

/-- The `data.attributes` object of a match document. -/
structure MatchAttrs where
  gameMode : Option String
  mapName : Option String
  createdAt : Option String
deriving DecidableEq, Repr

/-- The `data` object of a match document. -/
structure MatchData where
  id : Option String
  attributes : Option MatchAttrs
deriving DecidableEq, Repr

/-- A raw `/matches/<id>` document as consumed by the extractor. -/
structure MatchDoc where
  data : Option MatchData
  included : Option (List IncRec)
deriving DecidableEq, Repr

/-- Python `x or "-"` on an optional string: `None` and `""` both give
the sentinel. -/
def orDash (o : Option String) : String :=
  match o with
  | some s => if s = "" then "-" else s
  | none => "-"

/-- The normalized per-match record built by the extractor
(src/app.py:146-157). -/
structure MatchStat where
  match_id : Option String
  mode : String
  map : String
  createdAt : String
  rank : Option ℤ
  kills : ℤ
  damage : ℚ
  dbno : ℤ
  traveled : String
  timeAlive : String
deriving DecidableEq, Repr

/-- The participant test of the search loop (src/app.py:138-143): type
`participant` and a case-insensitive stats-name match. -/
def incMatches (player : String) (inc : IncRec) : Bool :=
  inc.type == "participant" &&
    lowerStr ((inc.stats.getD emptyPStats).name.getD "") == lowerStr player

/-- `extract_player_stats_from_match` (src/app.py:123-174): read the
match-level attributes, search `included` for the player's participant
record, and fill the stats — or leave every player field at its default
when no participant matches. -/
def extract_player_stats_from_match (doc : MatchDoc) (player : String) : MatchStat :=
  let attrs := doc.data.bind MatchData.attributes
  let included := doc.included.getD []
  let base : MatchStat :=
    { match_id := doc.data.bind MatchData.id
      mode := orDash (attrs.bind MatchAttrs.gameMode)
      map := orDash (attrs.bind MatchAttrs.mapName)
      createdAt := orDash (attrs.bind MatchAttrs.createdAt)
      rank := none
      kills := 0
      damage := 0
      dbno := 0
      traveled := "-"
      timeAlive := "-" }
  match included.find? (incMatches player) with
  | none => base
  | some inc =>
    let s := inc.stats.getD emptyPStats
    { base with
      rank := s.winPlace
      kills := s.kills.getD 0
      damage := s.damageDealt.getD 0
      dbno := s.dbnos.getD 0
      traveled := distance_str s.walkDistance s.rideDistance s.swimDistance
      timeAlive := to_m_ss (s.timeSurvived.getD (.vNum 0)) }

/-- The limit clamp of `api_matches` (src/app.py:190). -/
def clamp_limit (l : ℤ) : ℤ := if l < 1 then 1 else if 50 < l then 50 else l

/-- The per-id loop of `api_matches` (src/app.py:206-214): fetch each
match detail and extract; a failed fetch is skipped silently.  `detail`
is the external match-detail collaborator (`none` = the call failed). -/
def api_matches_loop (detail : String → Option MatchDoc) (player : String) :
    List String → List MatchStat
  | [] => []
  | mid :: rest =>
    match detail mid with
    | none => api_matches_loop detail player rest
    | some mj => extract_player_stats_from_match mj player :: api_matches_loop detail player rest

/-- The paging core of `api_matches` (src/app.py:188-216): clamp the
page and limit, slice `ids[start:end]`, and run the per-id loop. -/
def api_matches (ids : List String) (page limit : ℤ)
    (detail : String → Option MatchDoc) (player : String) : List MatchStat :=
  let p := max page 0
  let l := clamp_limit limit
  let start := p * l
  api_matches_loop detail player ((ids.drop start.toNat).take l.toNat)

/-- A leaderboard table whose headers match five of the six locator
synonyms (all but `longest`). -/
def demoStrong : HTable :=
  { theadRows := [[⟨true, "Player"⟩, ⟨true, "K/D"⟩, ⟨true, "Kills"⟩,
                   ⟨true, "Assists"⟩, ⟨true, "Headshot Kills"⟩]]
    bodyRows := [[⟨false, "Alice"⟩, ⟨false, "1.2"⟩, ⟨false, "7"⟩,
                  ⟨false, "3"⟩, ⟨false, "2"⟩]] }

/-- A table whose headers match only the `player` synonym. -/
def demoWeak : HTable :=
  { theadRows := [[⟨true, "Player"⟩, ⟨true, "Team"⟩, ⟨true, "Points"⟩]]
    bodyRows := [[⟨false, "Bob"⟩, ⟨false, "T1"⟩, ⟨false, "10"⟩]] }

/-- A full leaderboard table whose kills cell carries a negative number. -/
def negTable : HTable :=
  { theadRows := [[⟨true, "Player"⟩, ⟨true, "K/D"⟩, ⟨true, "Kills"⟩,
                   ⟨true, "Assists"⟩, ⟨true, "Headshot Kills"⟩, ⟨true, "Longest Kill"⟩]]
    bodyRows := [[⟨false, "Bob"⟩, ⟨false, ""⟩, ⟨false, "-5"⟩,
                  ⟨false, "1"⟩, ⟨false, "0"⟩, ⟨false, ""⟩]] }

/-- A match document whose only participant record belongs to another player. -/
def demoDoc : MatchDoc :=
  { data := some
      { id := some "m1"
        attributes := some
          { gameMode := some "squad", mapName := some "Erangel",
            createdAt := some "2025-01-01T00:00:00Z" } }
    included := some
      [ { type := "participant"
          stats := some { emptyPStats with name := some "Other", kills := some 4 } },
        { type := "roster", stats := none } ] }

/-- Twenty-five match ids, named by their position. -/
def ids25 : List String := (List.range 25).map (fun n => toString n)

/-- A cache-key component that cannot collide with the key syntax: it
contains neither the separator fill character nor a slash. -/
def cleanPart (s : String) : Prop := '_' ∉ s.data ∧ '/' ∉ s.data

/-- Traversal that has reached Python `None` always ends in the default. -/
theorem safe_get_null (ks : List String) (d : JVal) : safe_get .jnull ks d = d := by
  cases ks <;> simp [safe_get, JVal.isNull]

/-- The locator loop is the first-match search over the score predicate. -/
theorem findTarget_eq (ts : List HTable) :
    findTarget ts = ts.find? (fun tb => decide (4 ≤ tbScore tb)) := by
  induction ts with
  | nil => rfl
  | cons tb rest ih =>
    by_cases h : 4 ≤ tbScore tb <;> simp [findTarget, List.find?_cons, h, ih]

/-- The row loop keeps exactly the rows accepted by `rowStep`, in order. -/
theorem rowLoop_eq (idx : ColIdx) (rows : List (List HCell)) :
    rowLoop idx rows = rows.filterMap (rowStep idx) := by
  induction rows with
  | nil => rfl
  | cons tds rest ih =>
    cases h : rowStep idx tds <;> simp [rowLoop, h, ih]

/-- The pager's per-id loop keeps exactly the ids whose detail call
succeeds, in order. -/
theorem api_matches_loop_eq (detail : String → Option MatchDoc) (player : String)
    (l : List String) :
    api_matches_loop detail player l =
      l.filterMap (fun mid => (detail mid).map
        (fun mj => extract_player_stats_from_match mj player)) := by
  induction l with
  | nil => rfl
  | cons mid rest ih =>
    cases h : detail mid <;> simp [api_matches_loop, h, ih]

/-- C10: `_safe_get` is total and returns the caller's default exactly
when the key path fails to traverse dicts, or when it resolves to a
stored null — a present null is indistinguishable from an absent key, as
the two closing concrete cases show. -/
theorem c10_safe_get_default :
    (∀ (o : JVal) (keys : List String) (d : JVal),
      safe_get o keys d =
        (match jLookup o keys with
         | some v => if v.isNull then d else v
         | none => d))
    ∧ safe_get (.jobj [("a", .jnull)]) ["a"] (.jstr "D") = .jstr "D"
    ∧ safe_get (.jobj []) ["a"] (.jstr "D") = .jstr "D" := by
  refine ⟨fun o keys d => ?_, rfl, rfl⟩
  induction keys generalizing o with
  | nil => simp [safe_get, jLookup]
  | cons k ks ih =>
    cases o with
    | jobj fields =>
      simp only [safe_get, jLookup, jGet]
      cases h : fields.find? (fun p => p.1 == k) with
      | none => simp [h, safe_get_null]
      | some p => simp [h, ih]
    | jnull => simp [safe_get, jLookup]
    | jbool b => simp [safe_get, jLookup]
    | jnum q => simp [safe_get, jLookup]
    | jstr s => simp [safe_get, jLookup]
    | jarr l => simp [safe_get, jLookup]

/-- C2: a `save_cache` followed by `load_cache` for the same key within
the TTL returns exactly the stored rows; an entry whose timestamp is
older than `now - TTL` is a miss, and so are a corrupt file and a
missing file. -/
theorem c2_cache_round_trip :
    ∀ (st : CacheStore) (now later : ℤ) (tid g r : String) (rows : List PlayerRow),
      (later - now ≤ CACHE_TTL_SEC →
        load_cache (save_cache st now tid g r rows) later tid g r = some rows)
      ∧ (∀ ts old, st (cache_path tid g r) = some (.entry ts old) →
          ts < later - CACHE_TTL_SEC → load_cache st later tid g r = none)
      ∧ (st (cache_path tid g r) = some .corrupt → load_cache st later tid g r = none)
      ∧ (st (cache_path tid g r) = none → load_cache st later tid g r = none) := by
  intro st now later tid g r rows
  refine ⟨fun h => ?_, fun ts old h1 h2 => ?_, fun h => ?_, fun h => ?_⟩
  · simp [load_cache, save_cache, h]
  · simp only [load_cache, h1]
    rw [if_neg (by omega)]
  · simp [load_cache, h]
  · simp [load_cache, h]

/-- Witness for C2 at a concrete store, key and clock. -/
theorem c2_cache_round_trip_witness :
    load_cache (save_cache (fun _ => none) 0 "t5" "A" "1" []) 3600 "t5" "A" "1" = some [] :=
  (c2_cache_round_trip (fun _ => none) 0 3600 "t5" "A" "1" []).1 (by decide)

/-- C3: the locator scores each table by the number of synonyms present
in its (lower-cased) header cells and picks the first table scoring at
least 4; with none qualifying, parsing yields the empty player list.
The demo tables score 5 and 1, and the 5-scorer is selected even when it
comes second. -/
theorem c3_table_locator :
    (∀ ts : List HTable, findTarget ts = ts.find? (fun tb => decide (4 ≤ tbScore tb)))
    ∧ (∀ ts : List HTable,
        ts.find? (fun tb => decide (4 ≤ tbScore tb)) = none → parse_twire_players ts = [])
    ∧ tbScore demoStrong = 5
    ∧ tbScore demoWeak = 1
    ∧ findTarget [demoWeak, demoStrong] = some demoStrong := by
  refine ⟨findTarget_eq, fun ts h => ?_, by decide, by decide, by decide⟩
  simp [parse_twire_players, findTarget_eq, h]

/-- Witness for C3's conditional part: a document with only the weak
table has no qualifying candidate, and parsing returns the empty list. -/
theorem c3_table_locator_witness : parse_twire_players [demoWeak] = [] :=
  c3_table_locator.2.1 [demoWeak] (by decide)

/-- C4: the row loop keeps exactly the rows `rowStep` accepts; a row
with fewer than 3 cells, or an empty or header-repeating name cell, is
skipped; a kept row parses its integer fields through `as_int`
(comma-stripping, first signed integer, default 0), its kd through the
rounding function, and its longest kill through `as_float`; an absent
column (index -1) reads as `""` and therefore yields the zero default. -/
theorem c4_row_parsing :
    (∀ (idx : ColIdx) (rows : List (List HCell)),
      rowLoop idx rows = rows.filterMap (rowStep idx))
    ∧ (∀ (idx : ColIdx) (tds : List HCell), tds.length < 3 → rowStep idx tds = none)
    ∧ (∀ (idx : ColIdx) (tds : List HCell),
        val tds idx.i_player = "" ∨ lowerStr (val tds idx.i_player) = "player"
          ∨ lowerStr (val tds idx.i_player) = "name" →
        rowStep idx tds = none)
    ∧ (∀ (idx : ColIdx) (tds : List HCell),
        ¬ tds.length < 3 →
        ¬ (val tds idx.i_player = "" ∨ lowerStr (val tds idx.i_player) = "player"
            ∨ lowerStr (val tds idx.i_player) = "name") →
        rowStep idx tds = some
          { ign := val tds idx.i_player
            kd := kd_round_to_int (.vStr (val tds idx.i_kd))
            kills_total := as_int (val tds idx.i_kills)
            assists_total := as_int (val tds idx.i_ast)
            headshot_kills := as_int (val tds idx.i_hs)
            longest_kill := as_float (val tds idx.i_long) })
    ∧ as_int "1,234 kills" = 1234
    ∧ as_int "n/a" = 0
    ∧ (∀ tds : List HCell, val tds (-1) = "")
    ∧ as_int "" = 0 ∧ as_float "" = 0 ∧ kd_round_to_int (.vStr "") = 0 := by
  refine ⟨rowLoop_eq, fun idx tds h => ?_, fun idx tds h => ?_, fun idx tds h1 h2 => ?_,
    by decide, by decide, fun tds => ?_, by decide, by decide, by decide⟩
  · simp [rowStep, h]
  · by_cases hlen : tds.length < 3 <;> simp [rowStep, hlen, h]
  · simp [rowStep, h1, h2]
  · rw [val, if_neg (by norm_num)]

/-- Witness for C4 at concrete rows: the empty row is skipped, and a
header-repeat row is skipped. -/
theorem c4_row_parsing_witness :
    rowStep ⟨0, 1, 2, 3, 4, 5⟩ [] = none
    ∧ rowStep ⟨0, 1, 2, 3, 4, 5⟩ [⟨false, "Player"⟩, ⟨false, "1"⟩, ⟨false, "2"⟩] = none :=
  ⟨c4_row_parsing.2.1 ⟨0, 1, 2, 3, 4, 5⟩ [] (by decide),
   c4_row_parsing.2.2.1 ⟨0, 1, 2, 3, 4, 5⟩ [⟨false, "Player"⟩, ⟨false, "1"⟩, ⟨false, "2"⟩]
     (by decide)⟩

/-- C5: the pager clamps the limit into [1, 50], processes exactly the
slice `ids[page*limit : page*limit + limit]` (empty past the end), keeps
the extraction results of the ids whose retrieval succeeds in order, and
so returns at most `limit` results; with 25 ids, page 2 and limit 10 the
slice is `ids[20:25]` and at most 5 results come back. -/
theorem c5_match_pager :
    (∀ limit : ℤ, 1 ≤ clamp_limit limit ∧ clamp_limit limit ≤ 50)
    ∧ (∀ (ids : List String) (page limit : ℤ) (detail : String → Option MatchDoc)
         (player : String),
        api_matches ids page limit detail player =
          ((ids.drop ((max page 0) * clamp_limit limit).toNat).take
              (clamp_limit limit).toNat).filterMap
            (fun mid => (detail mid).map
              (fun mj => extract_player_stats_from_match mj player)))
    ∧ (∀ (ids : List String) (page limit : ℤ) (detail : String → Option MatchDoc)
         (player : String),
        (api_matches ids page limit detail player).length ≤ (clamp_limit limit).toNat)
    ∧ (ids25.drop (2 * 10)).take 10 = ["20", "21", "22", "23", "24"]
    ∧ (∀ (detail : String → Option MatchDoc) (player : String),
        (api_matches ids25 2 10 detail player).length ≤ 5) := by
  have hmain : ∀ (ids : List String) (page limit : ℤ) (detail : String → Option MatchDoc)
      (player : String),
      api_matches ids page limit detail player =
        ((ids.drop ((max page 0) * clamp_limit limit).toNat).take
            (clamp_limit limit).toNat).filterMap
          (fun mid => (detail mid).map
            (fun mj => extract_player_stats_from_match mj player)) := by
    intro ids page limit detail player
    simp [api_matches, api_matches_loop_eq]
  refine ⟨fun limit => ?_, hmain, fun ids page limit detail player => ?_, by decide,
    fun detail player => ?_⟩
  · unfold clamp_limit; split_ifs <;> omega
  · rw [hmain]
    calc (((ids.drop ((max page 0) * clamp_limit limit).toNat).take
            (clamp_limit limit).toNat).filterMap
          (fun mid => (detail mid).map
            (fun mj => extract_player_stats_from_match mj player))).length
        ≤ ((ids.drop ((max page 0) * clamp_limit limit).toNat).take
            (clamp_limit limit).toNat).length := List.length_filterMap_le _ _
      _ ≤ (clamp_limit limit).toNat := List.length_take_le _ _
  · rw [hmain]
    exact le_trans (List.length_filterMap_le _ _) (by decide)

/-- C6: when no `included` record is a participant with a
case-insensitive stats-name match, the extractor returns the
match-level fields with every player field at its documented default
(rank absent, kills 0, damage 0, knockdowns 0, traveled "-",
timeAlive "-"), and never fails. -/
theorem c6_extract_defaults :
    ∀ (doc : MatchDoc) (player : String),
      (∀ inc ∈ doc.included.getD [], incMatches player inc = false) →
      extract_player_stats_from_match doc player =
        { match_id := doc.data.bind MatchData.id
          mode := orDash ((doc.data.bind MatchData.attributes).bind MatchAttrs.gameMode)
          map := orDash ((doc.data.bind MatchData.attributes).bind MatchAttrs.mapName)
          createdAt := orDash ((doc.data.bind MatchData.attributes).bind MatchAttrs.createdAt)
          rank := none
          kills := 0
          damage := 0
          dbno := 0
          traveled := "-"
          timeAlive := "-" } := by
  intro doc player h
  have hf : (doc.included.getD []).find? (incMatches player) = none :=
    List.find?_eq_none.mpr (fun x hx => by simp [h x hx])
  simp [extract_player_stats_from_match, hf]

/-- Witness for C6: a document whose only participant belongs to a
different player extracts to the all-defaults record. -/
theorem c6_extract_defaults_witness :
    extract_player_stats_from_match demoDoc "Alice" =
      { match_id := some "m1"
        mode := "squad"
        map := "Erangel"
        createdAt := "2025-01-01T00:00:00Z"
        rank := none
        kills := 0
        damage := 0
        dbno := 0
        traveled := "-"
        timeAlive := "-" } := by
  have h := c6_extract_defaults demoDoc "Alice" (by decide)
  simpa [demoDoc, orDash] using h

/-- Commas removed cannot introduce a minus sign. -/
theorem stripCommas_no_minus (s : String) (h : '-' ∉ s.data) :
    '-' ∉ (stripCommas s).data := by
  simp only [stripCommas]
  intro hm
  exact h (List.mem_of_mem_filter hm)

/-- On text without a minus sign, the first integer token is unsigned. -/
theorem firstIntTok_no_minus (l : List Char) (h : '-' ∉ l) :
    ∀ p, firstIntTok l = some p → p.1 = false := by
  induction l with
  | nil => intro p hp; simp [firstIntTok] at hp
  | cons c cs ih =>
    intro p hp
    have hc : c ≠ '-' := fun hc => h (hc ▸ List.mem_cons_self c cs)
    have hcs : '-' ∉ cs := fun hm => h (List.mem_cons_of_mem c hm)
    by_cases hd : c.isDigit
    · simp only [firstIntTok, hd, if_true] at hp
      injection hp with h1
      rw [← h1]
    · simp only [firstIntTok] at hp
      rw [if_neg (by simp [hd]), if_neg (fun hand => hc hand.1)] at hp
      exact ih hcs p hp

/-- `as_int` is nonnegative on text without a minus sign. -/
theorem as_int_nonneg (s : String) (h : '-' ∉ s.data) : 0 ≤ as_int s := by
  rw [as_int]
  cases hp : firstIntTok (stripCommas s).data with
  | none => simp
  | some p =>
    have hfalse := firstIntTok_no_minus _ (stripCommas_no_minus s h) p hp
    show 0 ≤ (if p.1 = true then -1 else 1) * (digitsToNat p.2 : ℤ)
    rw [hfalse]
    simp

/-- The optional fractional group's value is nonnegative. -/
theorem fracPart_nonneg (rest : List Char) : 0 ≤ fracPart rest := by
  rw [fracPart.eq_def]
  split
  · split
    · exact Rat.divInt_nonneg (by positivity) (by positivity)
    · exact le_refl 0
  · exact le_refl 0

/-- An unsigned float token has nonnegative value. -/
theorem floatTokVal_false_nonneg (cs : List Char) : 0 ≤ floatTokVal false cs := by
  rw [floatTokVal]
  simp only [Bool.false_eq_true, if_false]
  exact add_nonneg (by positivity) (fracPart_nonneg _)

/-- On text without a minus sign, the first float token is nonnegative. -/
theorem firstFloatTok_nonneg (l : List Char) (h : '-' ∉ l) :
    ∀ q, firstFloatTok l = some q → 0 ≤ q := by
  induction l with
  | nil => intro q hq; simp [firstFloatTok] at hq
  | cons c cs ih =>
    intro q hq
    have hc : c ≠ '-' := fun hc => h (hc ▸ List.mem_cons_self c cs)
    have hcs : '-' ∉ cs := fun hm => h (List.mem_cons_of_mem c hm)
    by_cases hd : c.isDigit
    · simp only [firstFloatTok, hd, if_true, Option.some.injEq] at hq
      exact hq ▸ floatTokVal_false_nonneg (c :: cs)
    · simp only [firstFloatTok] at hq
      rw [if_neg (by simp [hd]), if_neg (fun hand => hc hand.1)] at hq
      exact ih hcs q hq

/-- `as_float` is nonnegative on text without a minus sign. -/
theorem as_float_nonneg (s : String) (h : '-' ∉ s.data) : 0 ≤ as_float s := by
  rw [as_float]
  cases hq : firstFloatTok (stripCommas s).data with
  | none => simp
  | some q => simpa using firstFloatTok_nonneg _ (stripCommas_no_minus s h) q hq

/-- A `getD` read is either a list element or the fallback. -/
theorem getD_mem_or (l : List HCell) (n : ℕ) (d : HCell) :
    l.getD n d ∈ l ∨ l.getD n d = d := by
  induction l generalizing n with
  | nil => right; cases n <;> rfl
  | cons a as ih =>
    cases n with
    | zero => left; exact List.mem_cons_self a as
    | succ m =>
      rcases ih m with hm | hm
      · left; exact List.mem_cons_of_mem a hm
      · right; exact hm

/-- `val` never reads a minus sign out of minus-free cells. -/
theorem val_no_minus (tds : List HCell) (i : ℤ)
    (h : ∀ c ∈ tds, '-' ∉ c.txt.data) : '-' ∉ (val tds i).data := by
  rw [val]
  split
  · rcases getD_mem_or tds i.toNat ⟨false, ""⟩ with hm | hm
    · exact h _ hm
    · rw [hm]; simp
  · simp

/-- Counterexample to C9 as stated: a leaderboard table whose kills cell
reads `-5` produces a `PlayerRow` with a negative `kills_total`, because
`as_int` extracts a signed integer pattern. -/
theorem c9_row_bounds_counterexample :
    (parse_twire_players [negTable]).map PlayerRow.kills_total = [-5]
    ∧ ((-5 : ℤ) < 0) := by
  constructor
  · decide
  · decide

/-- C9 (amended): the parsers extract the first signed numeric pattern,
so the bounds hold for rows whose cell texts carry no minus sign: such a
kept row has nonnegative kills, assists and headshot counts and a
nonnegative longest kill. -/
theorem c9_row_bounds_amended :
    ∀ (idx : ColIdx) (tds : List HCell) (row : PlayerRow),
      rowStep idx tds = some row →
      (∀ c ∈ tds, '-' ∉ c.txt.data) →
      0 ≤ row.kills_total ∧ 0 ≤ row.assists_total
        ∧ 0 ≤ row.headshot_kills ∧ 0 ≤ row.longest_kill := by
  intro idx tds row hsome h
  rw [rowStep] at hsome
  split_ifs at hsome
  injection hsome with hrow
  rw [← hrow]
  exact ⟨as_int_nonneg _ (val_no_minus tds idx.i_kills h),
    as_int_nonneg _ (val_no_minus tds idx.i_ast h),
    as_int_nonneg _ (val_no_minus tds idx.i_hs h),
    as_float_nonneg _ (val_no_minus tds idx.i_long h)⟩

/-- Witness for the amended C9 on a concrete minus-free row. -/
theorem c9_row_bounds_amended_witness :
    0 ≤ (⟨"Alice", 0, 7, 3, 2, 0⟩ : PlayerRow).kills_total
    ∧ 0 ≤ (⟨"Alice", 0, 7, 3, 2, 0⟩ : PlayerRow).assists_total
    ∧ 0 ≤ (⟨"Alice", 0, 7, 3, 2, 0⟩ : PlayerRow).headshot_kills
    ∧ 0 ≤ (⟨"Alice", 0, 7, 3, 2, 0⟩ : PlayerRow).longest_kill :=
  c9_row_bounds_amended ⟨0, 1, 2, 3, 4, 5⟩
    [⟨false, "Alice"⟩, ⟨false, ""⟩, ⟨false, "7"⟩, ⟨false, "3"⟩, ⟨false, "2"⟩, ⟨false, ""⟩]
    ⟨"Alice", 0, 7, 3, 2, 0⟩ (by decide) (by decide)

/-- Equal character data means equal strings. -/
theorem string_data_inj {s t : String} (h : s.data = t.data) : s = t := by
  cases s; cases t; exact congrArg String.mk h

/-- Replacing slashes is the identity on slash-free text. -/
theorem map_slashFix_id (l : List Char) (h : '/' ∉ l) : l.map slashFix = l := by
  induction l with
  | nil => rfl
  | cons c cs ih =>
    have hc : c ≠ '/' := fun hc => h (hc ▸ List.mem_cons_self c cs)
    have hcs : '/' ∉ cs := fun hm => h (List.mem_cons_of_mem c hm)
    simp [slashFix, hc, ih hcs]

/-- Splitting at the first underscore: two concatenations of an
underscore-free part, an underscore and a tail agree only componentwise. -/
theorem split_und (a : List Char) : ∀ b t u : List Char, '_' ∉ a → '_' ∉ b →
    a ++ '_' :: t = b ++ '_' :: u → a = b ∧ t = u := by
  induction a with
  | nil =>
    intro b t u _ hb h
    cases b with
    | nil => simpa using h
    | cons d bs =>
      simp only [List.nil_append, List.cons_append, List.cons.injEq] at h
      have : ('_' : Char) ∈ d :: bs := by rw [h.1]; exact List.mem_cons_self d bs
      exact absurd this hb
  | cons c as ih =>
    intro b t u ha hb h
    cases b with
    | nil =>
      simp only [List.nil_append, List.cons_append, List.cons.injEq] at h
      have : ('_' : Char) ∈ c :: as := by rw [← h.1]; exact List.mem_cons_self c as
      exact absurd this ha
    | cons d bs =>
      simp only [List.cons_append, List.cons.injEq] at h
      obtain ⟨rfl, h2⟩ := h
      have ha2 : '_' ∉ as := fun hm => ha (List.mem_cons_of_mem _ hm)
      have hb2 : '_' ∉ bs := fun hm => hb (List.mem_cons_of_mem _ hm)
      obtain ⟨h3, h4⟩ := ih bs t u ha2 hb2 h2
      exact ⟨by rw [h3], h4⟩

/-- The character data of a derived cache path. -/
theorem cache_path_data (t g r : String) :
    (cache_path t g r).data =
      ".twire_cache/player_stats_".data
        ++ ((t.data ++ sepG ++ g.data ++ sepR ++ r.data).map slashFix)
        ++ ".json".data := by
  simp [cache_path, cache_key, String.data_append]

/-- Counterexample to C8 as stated: two distinct key triples that share
one on-disk cache path, because the slash of the first tournament id is
rewritten to the underscore that the second one carries literally. -/
theorem c8_cache_path_counterexample :
    cache_path "a/b" "" "" = cache_path "a_b" "" ""
    ∧ ("a/b", "", "") ≠ (("a_b", "", "") : String × String × String) :=
  ⟨by decide, by decide⟩

/-- C8 (amended): the key derivation is injective on triples whose
components contain neither `_` nor `/`; the separators can only be
forged through those two characters. -/
theorem c8_cache_key_injective :
    ∀ t g r t2 g2 r2 : String,
      cleanPart t → cleanPart g → cleanPart r →
      cleanPart t2 → cleanPart g2 → cleanPart r2 →
      cache_path t g r = cache_path t2 g2 r2 →
      t = t2 ∧ g = g2 ∧ r = r2 := by
  intro t g r t2 g2 r2 ht hg hr ht2 hg2 hr2 h
  have hd := congrArg String.data h
  rw [cache_path_data, cache_path_data] at hd
  have hk := List.append_cancel_left (List.append_cancel_right hd)
  have hns : '/' ∉ (t.data ++ sepG ++ g.data ++ sepR ++ r.data) := by
    intro hm
    simp only [List.mem_append] at hm
    rcases hm with ((((h1 | h2) | h3) | h4) | h5)
    · exact ht.2 h1
    · exact (by decide : ('/' : Char) ∉ sepG) h2
    · exact hg.2 h3
    · exact (by decide : ('/' : Char) ∉ sepR) h4
    · exact hr.2 h5
  have hns2 : '/' ∉ (t2.data ++ sepG ++ g2.data ++ sepR ++ r2.data) := by
    intro hm
    simp only [List.mem_append] at hm
    rcases hm with ((((h1 | h2) | h3) | h4) | h5)
    · exact ht2.2 h1
    · exact (by decide : ('/' : Char) ∉ sepG) h2
    · exact hg2.2 h3
    · exact (by decide : ('/' : Char) ∉ sepR) h4
    · exact hr2.2 h5
  rw [map_slashFix_id _ hns, map_slashFix_id _ hns2] at hk
  simp only [sepG, sepR, List.append_assoc, List.cons_append, List.nil_append] at hk
  obtain ⟨h1, h2⟩ := split_und t.data t2.data _ _ ht.1 ht2.1 hk
  simp only [List.cons.injEq, true_and] at h2
  obtain ⟨h3, h4⟩ := split_und g.data g2.data _ _ hg.1 hg2.1 h2
  simp only [List.cons.injEq, true_and] at h4
  exact ⟨string_data_inj h1, string_data_inj h3, string_data_inj h4⟩

/-- Witness for the amended C8 at concrete clean components. -/
theorem c8_cache_key_injective_witness :
    ("t1" : String) = "t1" ∧ ("A" : String) = "A" ∧ ("2" : String) = "2" :=
  c8_cache_key_injective "t1" "A" "2" "t1" "A" "2" ⟨by decide, by decide⟩
    ⟨by decide, by decide⟩ ⟨by decide, by decide⟩ ⟨by decide, by decide⟩
    ⟨by decide, by decide⟩ ⟨by decide, by decide⟩ rfl

/-- Counterexample to C7 as stated: a missing (`None`) input is coerced
to 0 by `seconds or 0` and renders as `"0:00"`, not as the claimed
sentinel `"-"`. -/
theorem c7_time_format_counterexample :
    to_m_ss .vNone = "0:00" ∧ ("0:00" : String) ≠ "-" :=
  ⟨by decide, by decide⟩

/-- C7 (amended): an integer number of seconds `n ≥ 0` renders as
`M:SS` with minutes `n / 60` unbounded and seconds `n % 60` zero-padded
to two digits; a falsy input (`None`, 0 or `""`) is coerced to 0 and
renders `"0:00"`; only a non-falsy input that fails integer conversion
yields the sentinel `"-"`. -/
theorem c7_time_format_amended :
    (∀ n : ℤ, 0 ≤ n →
      to_m_ss (.vNum (n : ℚ)) = toString (n / 60) ++ ":" ++ pad2 (n % 60))
    ∧ to_m_ss (.vNum 0) = "0:00"
    ∧ to_m_ss (.vNum 65) = "1:05"
    ∧ to_m_ss (.vNum 425) = "7:05"
    ∧ to_m_ss .vNone = "0:00"
    ∧ to_m_ss (.vStr "") = "0:00"
    ∧ (∀ s : String, s ≠ "" → pyInt? s = none → to_m_ss (.vStr s) = "-") := by
  refine ⟨fun n hn => ?_, by decide, by decide, by decide, by decide, by decide,
    fun s hne hnone => ?_⟩
  · rcases eq_or_lt_of_le hn with h0 | hpos
    · rw [← h0]; decide
    · have hne : ((n : ℚ) == 0) = false := by
        simp only [beq_eq_false_iff_ne, ne_eq, Rat.intCast_eq_zero]
        omega
      rw [to_m_ss]
      simp only [pyFalsy, hne, Bool.false_eq_true, if_false, pyIntOf]
      rw [pyTrunc, if_pos (by exact_mod_cast hn), Int.floor_intCast,
        Int.fdiv_eq_ediv _ (by norm_num), Int.fmod_eq_emod _ (by norm_num)]
  · have hb : (s == "") = false := beq_eq_false_iff_ne.mpr hne
    rw [to_m_ss]
    simp only [pyFalsy, hb, Bool.false_eq_true, if_false, pyIntOf, hnone]

/-- Witness for the amended C7 at 125 seconds. -/
theorem c7_time_format_amended_witness :
    to_m_ss (.vNum ((125 : ℤ) : ℚ)) =
      toString ((125 : ℤ) / 60) ++ ":" ++ pad2 ((125 : ℤ) % 60) :=
  c7_time_format_amended.1 125 (by decide)

/-- C1: the K/D rounding rule: with `i` the truncation toward zero and
`frac` the distance to it, `frac ≤ 0.4` keeps `i`, `frac ≥ 0.5` moves
one away from zero, the dead zone `(0.4, 0.5)` keeps `i`, and any
non-numeric input (a `None` or an unparsable string) yields 0; in
particular 2.39 ↦ 2, 2.45 ↦ 2, 2.5 ↦ 3 and -1.5 ↦ -2. -/
theorem c1_kd_round_rule :
    (∀ q : ℚ,
      (|q - (pyTrunc q : ℚ)| ≤ 0.4 → kd_round_to_int (.vNum q) = pyTrunc q)
      ∧ (0.5 ≤ |q - (pyTrunc q : ℚ)| →
          kd_round_to_int (.vNum q) = pyTrunc q + (if 0 ≤ q then 1 else -1))
      ∧ (0.4 < |q - (pyTrunc q : ℚ)| → |q - (pyTrunc q : ℚ)| < 0.5 →
          kd_round_to_int (.vNum q) = pyTrunc q))
    ∧ kd_round_to_int .vNone = 0
    ∧ (∀ s, pyFloat? s = none → kd_round_to_int (.vStr s) = 0)
    ∧ kd_round_to_int (.vNum 2.39) = 2
    ∧ kd_round_to_int (.vNum 2.45) = 2
    ∧ kd_round_to_int (.vNum 2.5) = 3
    ∧ kd_round_to_int (.vNum (-1.5)) = -2 := by
  have haux : ∀ (q : ℚ) (i : ℤ), pyTrunc q = i →
      kd_round_to_int (.vNum q) =
        if |q - (i : ℚ)| ≤ 0.4 then i
        else if 0.5 ≤ |q - (i : ℚ)| then i + (if 0 ≤ q then 1 else -1)
        else i := by
    intro q i hq
    simp only [kd_round_to_int, pyFloatOf, hq]
  refine ⟨fun q => ⟨fun h => ?_, fun h => ?_, fun h1 h2 => ?_⟩, rfl, fun s hs => ?_,
    ?_, ?_, ?_, ?_⟩
  · rw [haux q (pyTrunc q) rfl, if_pos h]
  · rw [haux q (pyTrunc q) rfl, if_neg (not_le.mpr (lt_of_lt_of_le (by norm_num) h)),
      if_pos h]
  · rw [haux q (pyTrunc q) rfl, if_neg (not_le.mpr h1), if_neg (not_le.mpr h2)]
  · simp [kd_round_to_int, pyFloatOf, hs]
  · rw [haux 2.39 2 (by rw [pyTrunc, if_pos (by norm_num)]; norm_num [Int.floor_eq_iff]),
      if_pos (by rw [abs_of_nonneg (by push_cast; norm_num)]; push_cast; norm_num)]
  · rw [haux 2.45 2 (by rw [pyTrunc, if_pos (by norm_num)]; norm_num [Int.floor_eq_iff]),
      if_neg (by rw [abs_of_nonneg (by push_cast; norm_num)]; push_cast; norm_num),
      if_neg (by rw [abs_of_nonneg (by push_cast; norm_num)]; push_cast; norm_num)]
  · rw [haux 2.5 2 (by rw [pyTrunc, if_pos (by norm_num)]; norm_num [Int.floor_eq_iff]),
      if_neg (by rw [abs_of_nonneg (by push_cast; norm_num)]; push_cast; norm_num),
      if_pos (by rw [abs_of_nonneg (by push_cast; norm_num)]; push_cast; norm_num),
      if_pos (by norm_num)]
    norm_num
  · rw [haux (-1.5) (-1)
        (by rw [pyTrunc, if_neg (by norm_num)]; norm_num [Int.ceil_eq_iff]),
      if_neg (by rw [abs_of_nonpos (by push_cast; norm_num)]; push_cast; norm_num),
      if_pos (by rw [abs_of_nonpos (by push_cast; norm_num)]; push_cast; norm_num),
      if_neg (by norm_num)]
    norm_num

/-- Witness for C1's conditional rule at 1.2 (fractional part 0.2). -/
theorem c1_kd_round_rule_witness :
    kd_round_to_int (.vNum 1.2) = pyTrunc 1.2 :=
  (c1_kd_round_rule.1 1.2).1 (by
    have ht : pyTrunc (1.2 : ℚ) = 1 := by
      rw [pyTrunc, if_pos (by norm_num)]
      norm_num [Int.floor_eq_iff]
    rw [ht, abs_of_nonneg (by push_cast; norm_num)]
    push_cast
    norm_num)
